import Mathlib

/-!
Verification of the typed routing / request-validation / documentation-derivation
layer of this repository (`src/server/index.ts`, `src/swagger.ts`, example app
`src/index.ts`) against its natural-language specification.

The embedding models the subsystems the claims are about:
  * JS values (`JsValue`) and the fragment of `JSON.parse` the response-shape
    inferencer relies on;
  * the handler-source transforms (`split('return')[1]`, first-occurrence
    `replace('}}','}')`, global `replace(/(\w+):/g,'"$1":')`);
  * zod schemas as a sum type (`Zod`) together with `zodToObject` and
    `zodToSwagger` from the source, and a model of the validation
    collaborator's `parse`;
  * the request pipeline (`createHandler` / `validateRequest` /
    `validateParams` / `handleError` / `preRequest` / `globalErrorHandler`);
  * the registration / mount / listen lifecycle of `AppServer` and
    `AppRouter`, with the swagger-entry accumulation;
  * the parameter-descriptor logic of `SwaggerDoc.apiDoc`.

Machine strings are embedded as `List Char`; JS exceptions are embedded as
`Option`/failure results (`none` = the statement threw).
-/

/-! ## JS values -/

mutual
/-- A JSON-serialisable JavaScript value (the value universe the server's
shape-inference and documentation derivation operate on). -/
inductive JsValue : Type where
  | str : String → JsValue
  | num : Int → JsValue
  | bool : Bool → JsValue
  | null : JsValue
  | arr : JsArr → JsValue
  | obj : JsObj → JsValue

/-- A JS array of `JsValue`s. -/
inductive JsArr : Type where
  | nil : JsArr
  | cons : JsValue → JsArr → JsArr

/-- A JS object: an insertion-ordered association of string keys to values. -/
inductive JsObj : Type where
  | nil : JsObj
  | cons : String → JsValue → JsObj → JsObj
end

mutual
def JsValue.beq : JsValue → JsValue → Bool
  | .str a, .str b => a == b
  | .num a, .num b => a == b
  | .bool a, .bool b => a == b
  | .null, .null => true
  | .arr a, .arr b => JsArr.beq a b
  | .obj a, .obj b => JsObj.beq a b
  | _, _ => false

def JsArr.beq : JsArr → JsArr → Bool
  | .nil, .nil => true
  | .cons v a, .cons w b => JsValue.beq v w && JsArr.beq a b
  | _, _ => false

def JsObj.beq : JsObj → JsObj → Bool
  | .nil, .nil => true
  | .cons k v a, .cons l w b => k == l && JsValue.beq v w && JsObj.beq a b
  | _, _ => false
end

instance : BEq JsValue := ⟨JsValue.beq⟩

deriving instance DecidableEq for JsValue, JsArr, JsObj
deriving instance Repr for JsValue, JsArr, JsObj

/-- The fields of a JS object as a Lean association list. -/
def JsObj.toList : JsObj → List (String × JsValue)
  | .nil => []
  | .cons k v rest => (k, v) :: rest.toList

/-- The elements of a JS array as a Lean list. -/
def JsArr.toList : JsArr → List JsValue
  | .nil => []
  | .cons v rest => v :: rest.toList

/-! ## Character-list utilities (JS string operations) -/

/-- A `\w` word character of the JS regexp dialect: letter, digit or
underscore. -/
def isWordChar (c : Char) : Bool :=
  c.isAlpha || c.isDigit || c = '_'

/-- Test `leadsWith pat xs`: does `xs` start with `pat`? -/
def leadsWith : List Char → List Char → Bool
  | [], _ => true
  | _ :: _, [] => false
  | p :: ps, x :: xs => p = x && leadsWith ps xs

/-- Test `hasSub pat xs`: does `pat` occur as a contiguous substring of `xs`? -/
def hasSub (pat : List Char) : List Char → Bool
  | [] => leadsWith pat []
  | x :: xs => leadsWith pat (x :: xs) || hasSub pat xs

/-- JS `String.prototype.includes` on the embedded strings. -/
def strIncludes (pat s : String) : Bool :=
  hasSub pat.toList s.toList

/-- One step of `String.prototype.split(sep)`: the chunk before the first
occurrence of `sep` and the remainder after it (`none` if `sep` does not
occur). Requires `sep ≠ []`. -/
def splitOnce (sep : List Char) : List Char → Option (List Char × List Char)
  | [] => if leadsWith sep [] then some ([], []) else none
  | x :: xs =>
    if leadsWith sep (x :: xs) then some ([], (x :: xs).drop sep.length)
    else match splitOnce sep xs with
      | some (pre, rest) => some (x :: pre, rest)
      | none => none

/-- Fuelled worker for `splitOnSub`. -/
def splitOnSubFuel (sep : List Char) : Nat → List Char → List (List Char)
  | 0, xs => [xs]
  | fuel + 1, xs =>
    match splitOnce sep xs with
    | none => [xs]
    | some (pre, rest) => pre :: splitOnSubFuel sep fuel rest

/-- JS `String.prototype.split(sep)` for a non-regexp, non-empty separator:
all chunks between occurrences of `sep`, in order. -/
def splitOnSub (sep xs : List Char) : List (List Char) :=
  splitOnSubFuel sep (xs.length + 1) xs

/-- JS `String.prototype.replace(pat, repl)` with a string pattern: replaces only
the first occurrence of `pat` (JS semantics), or returns the string unchanged
when `pat` does not occur. -/
def replaceFirstSub (pat repl xs : List Char) : List Char :=
  match splitOnce pat xs with
  | none => xs
  | some (pre, rest) => pre ++ repl ++ rest

/-- Fuelled worker for `quoteKeys`. -/
def quoteKeysFuel : Nat → List Char → List Char
  | 0, xs => xs
  | fuel + 1, xs =>
    match xs with
    | [] => []
    | c :: rest =>
      if isWordChar c then
        let run := (c :: rest).takeWhile isWordChar
        let after := (c :: rest).dropWhile isWordChar
        match after with
        | ':' :: tail => '"' :: (run ++ '"' :: ':' :: quoteKeysFuel fuel tail)
        | _ => run ++ quoteKeysFuel fuel after
      else c :: quoteKeysFuel fuel rest

/-- The global regexp replacement `.replace(/(\w+):/g, '"$1":')` of the
response-shape inferencer: every maximal `\w+` run immediately followed by a
colon is wrapped in double quotes. -/
def quoteKeys (xs : List Char) : List Char :=
  quoteKeysFuel (xs.length + 1) xs

/-! ## `JSON.parse` model

A model of the fragment of `JSON.parse` exercised by the response-shape
inferencer: whitespace, double-quoted strings without escape sequences,
integer numerals, `true` / `false` / `null`, arrays and objects.  `none`
means the parse throws a `SyntaxError`.  On every concrete string appearing
in this development the model agrees with `JSON.parse`. -/

/-- Skip JSON whitespace. -/
def skipWs (xs : List Char) : List Char :=
  xs.dropWhile (fun c => c = ' ' || c = '\n' || c = '\t' || c = '\r')

/-- Parse a double-quoted string body (no escapes): content and remainder
after the closing quote. -/
def parseStringBody (xs : List Char) : Option (String × List Char) :=
  let content := xs.takeWhile (fun c => c ≠ '"')
  match xs.dropWhile (fun c => c ≠ '"') with
  | '"' :: rest => some (String.mk content, rest)
  | _ => none

/-- Parse an integer numeral (optional minus, one or more digits). -/
def parseIntLit (xs : List Char) : Option (Int × List Char) :=
  let (neg, ys) := match xs with
    | '-' :: rest => (true, rest)
    | _ => (false, xs)
  let digits := ys.takeWhile Char.isDigit
  if digits.isEmpty then none
  else
    let n : Nat := digits.foldl (fun acc c => acc * 10 + (c.toNat - 48)) 0
    some (if neg then -(n : Int) else (n : Int), ys.dropWhile Char.isDigit)

mutual
/-- Parse one JSON value; returns the value and the unconsumed remainder. -/
def parseValue : Nat → List Char → Option (JsValue × List Char)
  | 0, _ => none
  | fuel + 1, xs =>
    match skipWs xs with
    | '"' :: rest =>
      match parseStringBody rest with
      | some (s, rest2) => some (.str s, rest2)
      | none => none
    | '{' :: rest =>
      match skipWs rest with
      | '}' :: rest2 => some (.obj .nil, rest2)
      | other => (parseMembers fuel other).map (fun (o, r) => (.obj o, r))
    | '[' :: rest =>
      match skipWs rest with
      | ']' :: rest2 => some (.arr .nil, rest2)
      | other => (parseElements fuel other).map (fun (a, r) => (.arr a, r))
    | 't' :: rest =>
      if leadsWith "rue".toList rest then some (.bool true, rest.drop 3) else none
    | 'f' :: rest =>
      if leadsWith "alse".toList rest then some (.bool false, rest.drop 4) else none
    | 'n' :: rest =>
      if leadsWith "ull".toList rest then some (.null, rest.drop 3) else none
    | other =>
      match parseIntLit other with
      | some (n, rest) => some (.num n, rest)
      | none => none

/-- Parse the members of an object after `{`, ending at `}`. -/
def parseMembers : Nat → List Char → Option (JsObj × List Char)
  | 0, _ => none
  | fuel + 1, xs =>
    match skipWs xs with
    | '"' :: rest =>
      match parseStringBody rest with
      | some (k, rest2) =>
        match skipWs rest2 with
        | ':' :: rest3 =>
          match parseValue fuel rest3 with
          | some (v, rest4) =>
            match skipWs rest4 with
            | ',' :: rest5 => (parseMembers fuel rest5).map (fun (o, r) => (.cons k v o, r))
            | '}' :: rest5 => some (.cons k v .nil, rest5)
            | _ => none
          | none => none
        | _ => none
      | none => none
    | _ => none

/-- Parse the elements of an array after `[`, ending at `]`. -/
def parseElements : Nat → List Char → Option (JsArr × List Char)
  | 0, _ => none
  | fuel + 1, xs =>
    match parseValue fuel xs with
    | some (v, rest) =>
      match skipWs rest with
      | ',' :: rest2 => (parseElements fuel rest2).map (fun (a, r) => (.cons v a, r))
      | ']' :: rest2 => some (.cons v .nil, rest2)
      | _ => none
    | none => none
end

/-- Model of `JSON.parse`: the whole input must be one value plus trailing whitespace;
`none` models the thrown `SyntaxError`. -/
def jsonParse (xs : List Char) : Option JsValue :=
  match parseValue (xs.length + 1) xs with
  | some (v, rest) => if skipWs rest = [] then some v else none
  | none => none

example : jsonParse "\x7b\"data\":\"x\"\x7d".toList
    = some (.obj (.cons "data" (.str "x") .nil)) := rfl
example : jsonParse "\x7b \"data\": 1 \x7d; \x7d".toList = none := rfl

/-! ## zod schemas and the Schema Shape Converter -/

mutual
/-- The zod schema universe as dispatched on by `zodToObject` / `zodToSwagger`
(`instanceof ZodString / ZodNumber / ZodArray / ZodObject`); `other` stands
for every schema instance that is none of those four (the converters'
final `else` branch). -/
inductive Zod : Type where
  | str : Zod
  | num : Zod
  | arr : Zod → Zod
  | obj : ZodFields → Zod
  | other : Zod

/-- The named fields of a `ZodObject` shape, in declaration order (the order
`for (const key in shape)` iterates). -/
inductive ZodFields : Type where
  | nil : ZodFields
  | cons : String → Zod → ZodFields → ZodFields
end

/-- The fields of a `ZodObject` shape as a Lean association list. -/
def ZodFields.toList : ZodFields → List (String × Zod)
  | .nil => []
  | .cons k z rest => (k, z) :: rest.toList

mutual
/-- Source `zodToObject` (src/server/index.ts:375): converts a schema into its
structural example object — `'string'` / `'number'` leaves, singleton arrays,
objects with the same keys, `'unknown'` for every other schema kind. -/
def zodToObject : Zod → JsValue
  | .str => .str "string"
  | .num => .str "number"
  | .arr inner => .arr (.cons (zodToObject inner) .nil)
  | .obj fields => .obj (zodToObjectFields fields)
  | .other => .str "unknown"

/-- The `for (const key in shape)` loop of `zodToObject`'s `ZodObject` case. -/
def zodToObjectFields : ZodFields → JsObj
  | .nil => .nil
  | .cons k z rest => .cons k (zodToObject z) (zodToObjectFields rest)
end

mutual
/-- A documentation shape: `{type}` for primitives, `{type:'array', items}`
for arrays, `{type:'object', properties}` for objects. -/
inductive SwaggerShape : Type where
  | prim : String → SwaggerShape
  | array : SwaggerShape → SwaggerShape
  | object : SwaggerProps → SwaggerShape

/-- Named properties of an object documentation shape, in declaration order. -/
inductive SwaggerProps : Type where
  | nil : SwaggerProps
  | cons : String → SwaggerShape → SwaggerProps → SwaggerProps
end

mutual
/-- Source `zodToSwagger` (src/server/index.ts:395): converts a schema into its
documentation shape; an unrecognized schema kind yields `{type:'unknown'}`. -/
def zodToSwagger : Zod → SwaggerShape
  | .str => .prim "string"
  | .num => .prim "number"
  | .arr inner => .array (zodToSwagger inner)
  | .obj fields => .object (zodToSwaggerFields fields)
  | .other => .prim "unknown"

/-- The `for (const key in shape)` loop of `zodToSwagger`'s `ZodObject` case. -/
def zodToSwaggerFields : ZodFields → SwaggerProps
  | .nil => .nil
  | .cons k z rest => .cons k (zodToSwagger z) (zodToSwaggerFields rest)
end

mutual
/-- Modelled from the spec: re-deriving a documentation shape from an example
value (§8 round-trip; no standalone source function exists for this — the
Documentation Assembler's `Object.entries(shape).map(([key, type]) => [key,
\x7btype\x7d])` uses each example leaf value as its type name, and this
definition extends that convention recursively as the spec's round-trip
sentence describes). String leaves (the converter emits `'string'`, `'number'`
or `'unknown'`) become `{type: <leaf>}`. -/
def exampleToSwagger : JsValue → SwaggerShape
  | .str s => .prim s
  | .num _ => .prim "number"
  | .bool _ => .prim "boolean"
  | .null => .prim "null"
  | .arr (.cons v _) => .array (exampleToSwagger v)
  | .arr .nil => .array (.prim "unknown")
  | .obj fields => .object (exampleToSwaggerObj fields)

/-- Recursion of `exampleToSwagger` over the fields of an example object. -/
def exampleToSwaggerObj : JsObj → SwaggerProps
  | .nil => .nil
  | .cons k v rest => .cons k (exampleToSwagger v) (exampleToSwaggerObj rest)
end

mutual
/-- Nesting depth of a schema (arbitrary but finite by construction). -/
def zodDepth : Zod → Nat
  | .str => 1
  | .num => 1
  | .other => 1
  | .arr inner => zodDepth inner + 1
  | .obj fields => zodFieldsDepth fields + 1

/-- Maximal depth over the fields of an object schema. -/
def zodFieldsDepth : ZodFields → Nat
  | .nil => 0
  | .cons _ z rest => max (zodDepth z) (zodFieldsDepth rest)
end

mutual
/-- Nesting depth of a documentation shape. -/
def swaggerDepth : SwaggerShape → Nat
  | .prim _ => 1
  | .array items => swaggerDepth items + 1
  | .object props => swaggerPropsDepth props + 1

/-- Maximal depth over the properties of an object documentation shape. -/
def swaggerPropsDepth : SwaggerProps → Nat
  | .nil => 0
  | .cons _ s rest => max (swaggerDepth s) (swaggerPropsDepth rest)
end

/-! ## Path-Parameter Extractor -/

/-- Fuelled worker for `extractPathParams`: scans for `:` followed by a
non-empty `\w+` run (the regexp `/:(\w+)/g`). -/
def extractPathParamsFuel : Nat → List Char → List String
  | 0, _ => []
  | fuel + 1, xs =>
    match xs with
    | [] => []
    | ':' :: rest =>
      let run := rest.takeWhile isWordChar
      if run.isEmpty then extractPathParamsFuel fuel rest
      else String.mk run :: extractPathParamsFuel fuel (rest.dropWhile isWordChar)
    | _ :: rest => extractPathParamsFuel fuel rest

/-- All matches of `path.match(/:(\w+)/g)` without their leading `:`, in
left-to-right order. -/
def extractPathParams (path : List Char) : List String :=
  extractPathParamsFuel (path.length + 1) path

/-- Source `createParamsObject` (src/server/index.ts:96): builds the object whose
keys are the path's dynamic parameter names, each bound to `''`.  Assigning
the same key twice leaves one entry at its first position (JS object
semantics), hence the deduplication. -/
def createParamsObject (path : List Char) : List (String × String) :=
  (extractPathParams path).dedup.map (fun k => (k, ""))

/-- Source `createZodSchema` (src/server/index.ts:110): builds a zod object schema of
nullable strings over the path's parameter names and immediately parses the
all-empty-string params object with it — which succeeds and returns that
object itself, so the function amounts to `createParamsObject`. -/
def createZodSchema (path : List Char) : List (String × String) :=
  createParamsObject path

example : createZodSchema "/items/:id".toList = [("id", "")] := by decide
example : createZodSchema "/profile".toList = [] := by decide

/-! ## Validation-schema collaborator (`parse`) -/

/-- One entry of a zod validation error's `errors` array: a field path and a
message. -/
structure ZodIssue where
  path : List String
  message : String
deriving DecidableEq, Repr

/-- The JS `typeof`-style name used in the modelled issue messages. -/
def jsTypeName : JsValue → String
  | .str _ => "string"
  | .num _ => "number"
  | .bool _ => "boolean"
  | .null => "null"
  | .arr _ => "array"
  | .obj _ => "object"

/-- Look up a key in a JS object (first binding wins). -/
def JsObj.find : JsObj → String → Option JsValue
  | .nil, _ => none
  | .cons k v rest, key => if k = key then some v else rest.find key

/-- Modelled from the validation-schema collaborator contract (§6):
`schema.parse(value)` either succeeds or throws a `ZodError` exposing an
ordered list of `{path, message}` issues.  The model checks a value against a
schema structurally, accumulating issues with their field paths; `Zod.other`
(a schema kind the Shape Converter does not recognize) is treated as
accepting.  Exact zod message texts are not relied upon by any claim. -/
def zodIssuesFuel : Nat → List String → Zod → JsValue → List ZodIssue
  | 0, _, _, _ => []
  | fuel + 1, path, z, v =>
    match z with
    | .str =>
      match v with
      | .str _ => []
      | _ => [⟨path, "Expected string, received " ++ jsTypeName v⟩]
    | .num =>
      match v with
      | .num _ => []
      | _ => [⟨path, "Expected number, received " ++ jsTypeName v⟩]
    | .arr inner =>
      match v with
      | .arr items =>
        ((items.toList.enum.map
          (fun p => zodIssuesFuel fuel (path ++ [toString p.1]) inner p.2))).flatten
      | _ => [⟨path, "Expected array, received " ++ jsTypeName v⟩]
    | .obj fields =>
      match v with
      | .obj o =>
        (fields.toList.map (fun kv =>
          match o.find kv.1 with
          | some w => zodIssuesFuel fuel (path ++ [kv.1]) kv.2 w
          | none => [⟨path ++ [kv.1], "Required"⟩])).flatten
      | _ => [⟨path, "Expected object, received " ++ jsTypeName v⟩]
    | .other => []

/-- Size bound used as fuel for `zodIssues` (the recursion descends the
schema, never deeper than its depth). -/
def zodIssues (z : Zod) (v : JsValue) : List ZodIssue :=
  zodIssuesFuel (zodDepth z) [] z v

/-- Call `schema.parse(value)` as used by `validateRequest`: `some issues` models
the thrown `ZodError`, `none` success. -/
def zodParseError (z : Zod) (v : JsValue) : Option (List ZodIssue) :=
  match zodIssues z v with
  | [] => none
  | issues => some issues

/-! ## Request Pipeline / Validation Gate -/

/-- The optional validation schemas of a route (middleware and detail are
carried separately where needed). -/
structure RouteSchemas where
  params : Option Zod := none
  body : Option Zod := none
  query : Option Zod := none

/-- The validated-request inputs a route handler is invoked with (raw
req/res/next references are runtime artifacts outside the embedding). -/
structure Req where
  params : List (String × String)
  body : JsValue
  query : JsValue

/-- A request's `req.params` as the JS object zod parses. -/
def Req.paramsJs (r : Req) : JsValue :=
  .obj (r.params.foldr (fun kv acc => .cons kv.1 (.str kv.2) acc) .nil)

/-- Source `BaseResponse` (src/server/index.ts:82): the contract every handler's
resolved value satisfies; absent optional fields are `none`. -/
structure BaseResponse where
  statusCode : Option Nat := none
  message : Option String := none
  success : Option Bool := none
  data : Option JsValue := none
  traceStack : Option String := none
  page : Option Nat := none
  pageSize : Option Nat := none
  total : Option Nat := none
deriving DecidableEq, Repr

/-- A value thrown (or rejected with) during handler execution.  `httpError`
is the declared `HttpError` class carrying an explicit status code; `error`
any other `Error` instance; `nonError` a thrown non-`Error` value, carried as
its `String(value)` rendering.  Stacks are runtime inputs. -/
inductive Thrown : Type where
  | httpError : Nat → String → String → Thrown
  | error : String → String → Thrown
  | nonError : String → Thrown
deriving DecidableEq, Repr

/-- The outcome of invoking the handler with the validated context. -/
inductive HandlerResult : Type where
  | ok : BaseResponse → HandlerResult
  | threw : Thrown → HandlerResult
deriving DecidableEq, Repr

/-- The uniform success envelope `preRequest` transmits:
`{success: true, message: 'Request successful', ...result}` — spread fields
of the handler's result override the two defaults. -/
structure Envelope where
  success : Bool
  message : String
  statusCode : Option Nat
  data : Option JsValue
  traceStack : Option String
  page : Option Nat
  pageSize : Option Nat
  total : Option Nat
deriving DecidableEq, Repr

/-- The spread-merge of `preRequest` (src/server/index.ts:280). -/
def mergeResponse (r : BaseResponse) : Envelope where
  success := r.success.getD true
  message := r.message.getD "Request successful"
  statusCode := r.statusCode
  data := r.data
  traceStack := r.traceStack
  page := r.page
  pageSize := r.pageSize
  total := r.total

/-- A transmitted response body — one constructor per `send`/`json` call site
of the pipeline.  `validationFailed` is `handleError`'s `ZodError` branch
(400); `internalError` its generic-`Error` branch (500), whose literal also
attaches `error.stack` (a runtime artifact, elided here); `globalError` is
the body built by `globalErrorHandler` (its `data` field is always `null`).
Field order inside each constructor follows the source literal. -/
inductive SentBody : Type where
  | success : Envelope → SentBody
  | validationFailed : Bool → String → List ZodIssue → SentBody
  | internalError : Bool → String → SentBody
  | globalError : Nat → String → Bool → Option String → SentBody
deriving DecidableEq, Repr

/-- A transmitted HTTP response: transport status plus JSON body. -/
structure HttpResponse where
  status : Nat
  body : SentBody
deriving DecidableEq, Repr

/-- The single-quote character (used when building JS message strings). -/
def sqChar : Char := Char.ofNat 39

/-- Modelled from the `zod-validation-error` collaborator: a human-readable
joining of the issues; the exact text is not relied upon by any claim.
`handleError` then replaces every `"` with `'`. -/
def fromZodErrorMessage (issues : List ZodIssue) : String :=
  "Validation error: " ++ String.intercalate "; " (issues.map ZodIssue.message)

/-- The quote-to-apostrophe replacement applied to the joined validation
message in `handleError`. -/
def msgQuotesToApos (s : String) : String :=
  String.mk (s.toList.map (fun c => if c = '"' then sqChar else c))

/-- The two error kinds reaching `handleError`'s catch: a `ZodError` from
`validateRequest`, or the plain `Error` thrown by `validateParams`. -/
inductive ReqError : Type where
  | zod : List ZodIssue → ReqError
  | err : String → ReqError
deriving DecidableEq, Repr

/-- Source `handleError` (src/server/index.ts:247): `ZodError` → 400 with joined
message and `{path, message}` details; any other `Error` → 500 with the fixed
message `'Internal server error'`. -/
def handleError : ReqError → HttpResponse
  | .zod issues =>
    { status := 400
      body := .validationFailed false (msgQuotesToApos (fromZodErrorMessage issues)) issues }
  | .err _ =>
    { status := 500, body := .internalError false "Internal server error" }

/-- Source `validateRequest` (src/server/index.ts:238): parses params, then body,
then query against the explicit schemas; the first `ZodError` thrown wins. -/
def validateRequest (schemas : RouteSchemas) (req : Req) : Option (List ZodIssue) :=
  match schemas.params.bind (fun z => zodParseError z req.paramsJs) with
  | some issues => some issues
  | none =>
    match schemas.body.bind (fun z => zodParseError z req.body) with
    | some issues => some issues
    | none => schemas.query.bind (fun z => zodParseError z req.query)

/-- Source `validateParams` (src/server/index.ts:230): for each key of the
template-derived schema object, in order, throws
`Error(\x60Parameter '<key>' is required\x60)` if the request binds no truthy
value to it (`!req.params[key]`: absent or empty string). `some msg` is the
first thrown message. -/
def validateParams (schemaObject : List (String × String)) (req : Req) : Option String :=
  schemaObject.findSome? (fun kv =>
    match req.params.lookup kv.1 with
    | some v =>
      if v = "" then
        some ("Parameter " ++ String.mk [sqChar] ++ kv.1 ++ String.mk [sqChar] ++ " is required")
      else none
    | none =>
      some ("Parameter " ++ String.mk [sqChar] ++ kv.1 ++ String.mk [sqChar] ++ " is required"))

/-- The `if (Object.keys(schemaObject).length)` guard of `createHandler`:
`validateParams` runs only when the schema object has keys. -/
def runParamsStage (schemaObject : List (String × String)) (req : Req) : Option String :=
  if schemaObject.isEmpty then none else validateParams schemaObject req

/-- Source `globalErrorHandler` (src/server/index.ts:130): status defaults to 500,
an `HttpError` overrides it with its declared code, any `Error`'s message is
used verbatim and forces 404 when it contains `'not found'`; a non-`Error`
value is wrapped as `'An unknown error occurred, <value>'`; the stack is
attached only in the development execution mode. -/
def globalErrorHandler (e : Thrown) (devMode : Bool) : HttpResponse :=
  match e with
  | .httpError declared msg stack =>
    let statusCode := if strIncludes "not found" msg then 404 else declared
    { status := statusCode
      body := .globalError statusCode msg false (if devMode then some stack else none) }
  | .error msg stack =>
    let statusCode := if strIncludes "not found" msg then 404 else 500
    { status := statusCode
      body := .globalError statusCode msg false (if devMode then some stack else none) }
  | .nonError value =>
    { status := 500
      body := .globalError 500 ("An unknown error occurred, " ++ value) false none }

/-- Source `preRequest` (src/server/index.ts:269): awaits the handler and sends the
merged envelope — with the transport status left at Express's default 200 —
while a rejection is forwarded by `catchAsync` through `next(err)` to
`globalErrorHandler`. -/
def preRequest (outcome : HandlerResult) (devMode : Bool) : HttpResponse :=
  match outcome with
  | .ok r => { status := 200, body := .success (mergeResponse r) }
  | .threw e => globalErrorHandler e devMode

/-- Source `createHandler` (src/server/index.ts:212): the per-request pipeline —
`validateRequest`, then (when the template-derived schema object is
non-empty) `validateParams`, with both guarded by `try/catch → handleError`;
then `preRequest`. -/
def createHandler (schemas : RouteSchemas) (schemaObject : List (String × String))
    (outcome : HandlerResult) (req : Req) (devMode : Bool) : HttpResponse :=
  match validateRequest schemas req with
  | some issues => handleError (.zod issues)
  | none =>
    match runParamsStage schemaObject req with
    | some msg => handleError (.err msg)
    | none => preRequest outcome devMode

/-! ## Route Registry, response-shape inference and lifecycle -/

/-- The `HttpMethod` enum of the source. -/
inductive HttpMethod : Type where
  | get | post | put | patch | delete
deriving DecidableEq, Repr

/-- A parameter descriptor of the assembled documentation (`IParameters` in
the source): name, kind (`'path'` or `'query'`), required flag and schema. -/
structure IParameter where
  name : String
  kind : String
  required : Bool
  schema : JsValue
deriving DecidableEq, Repr

/-- The explicit, author-supplied documentation overrides (`SwaggerDetail`);
only the fields the formalised claims touch are carried — `params` for the
parameter-descriptor priority, the rest elided. -/
structure SwaggerDetail where
  params : Option (List IParameter) := none
deriving DecidableEq, Repr

/-- A registered route (`Route` in the source): path template, method, the
handler's textual source (what `handler.toString()` yields), and the optional
schemas/detail.  The handler's runtime behaviour is supplied separately as a
`HandlerResult` where a claim needs it; middleware is kept abstract and elided. -/
structure RouteD where
  path : List Char
  method : HttpMethod
  handlerSrc : List Char
  schemas : RouteSchemas := {}
  detail : Option SwaggerDetail := none

/-- An accumulated `AppSwagger` documentation entry. -/
structure AppSwagger where
  path : List Char
  method : HttpMethod
  detail : Option SwaggerDetail
  body : JsValue
  query : JsValue
  params : JsValue
  response : JsValue

/-- The repaired candidate JSON text of the response-shape heuristic:
`handler.toString().split('return')[1].replace('}}','}')
.replace(/(\w+):/g,'"$1":')`.  When the source contains no `return`,
`split('return')[1]` is `undefined` and the first `.replace` throws a
`TypeError` — modelled as `none`. -/
def repairedReturnText (src : List Char) : Option (List Char) :=
  match (splitOnSub "return".toList src).drop 1 with
  | [] => none
  | part :: _ => some (quoteKeys (replaceFirstSub "\x7d\x7d".toList "\x7d".toList part))

/-- Source `parseJson` (src/server/index.ts:458): `JSON.parse` wrapped in
`try/catch`, degrading to `{}` on failure. -/
def parseJsonCaught (xs : List Char) : JsValue :=
  (jsonParse xs).getD (.obj .nil)

/-- The response-shape inference as run on the sub-router mounting path
(`AppServer.router`): repair, then `parseJson` (caught).  `none` means the
mounting call itself threw (no `return` in the handler source). -/
def inferResponseRouter (src : List Char) : Option JsValue :=
  (repairedReturnText src).map parseJsonCaught

/-- The response-shape inference as run on the direct listen-time binding
path (`AppServer.listen`): repair, then a bare `JSON.parse` with no
`try/catch` — a parse failure throws out of `listen`. -/
def inferResponseListen (src : List Char) : Option JsValue :=
  (repairedReturnText src).bind jsonParse

/-- The derived body/query/params shape of a swagger entry:
`schemas?.X ? zodToObject(schemas.X) : \x7b\x7d`. -/
def derivedShape (z : Option Zod) : JsValue :=
  match z with
  | some z => zodToObject z
  | none => .obj .nil

/-- The key identifying a bound route: its full mounted path and method. -/
def entryKey (e : AppSwagger) : List Char × HttpMethod :=
  (e.path, e.method)

/-- The `AppSwagger` entry built for one sub-router route inside
`AppServer.router` (src/server/index.ts:437-452); `none` when the
response-shape repair throws. -/
def routerEntry (pre : List Char) (r : RouteD) : Option AppSwagger :=
  (inferResponseRouter r.handlerSrc).map (fun resp =>
    { path := pre ++ r.path
      method := r.method
      detail := r.detail
      body := derivedShape r.schemas.body
      query := derivedShape r.schemas.query
      params := derivedShape r.schemas.params
      response := resp })

/-- The `AppSwagger` entry built for one directly-declared route inside
`AppServer.listen` (src/server/index.ts:472-490); `none` when the repair or
the unguarded `JSON.parse` throws. -/
def listenEntry (r : RouteD) : Option AppSwagger :=
  (inferResponseListen r.handlerSrc).map (fun resp =>
    { path := r.path
      method := r.method
      detail := r.detail
      body := derivedShape r.schemas.body
      query := derivedShape r.schemas.query
      params := derivedShape r.schemas.params
      response := resp })

/-- A `forEach`-with-push over a list of fallible steps: collects the results
in order, or fails at the first step that throws. -/
def mapOptionM (f : α → Option β) : List α → Option (List β)
  | [] => some []
  | a :: as => (f a).bind (fun b => (mapOptionM f as).map (fun bs => b :: bs))

/-- The mutable registration state of an `AppServer`: its own `routes` list,
the accumulated `swaggerPath` entries, and the underlying Express app's bound
route table (represented by each binding's mounted path and method, in
binding order). -/
structure ServerState where
  routes : List RouteD
  swaggerPath : List AppSwagger
  bound : List (List Char × HttpMethod)

/-- The state of a sub-router (`AppRouter`): its accumulated `routes`. -/
structure RouterState where
  routes : List RouteD

/-- A freshly constructed `AppServer`. -/
def initialServer : ServerState :=
  { routes := [], swaggerPath := [], bound := [] }

/-- Source `AppServer.router(path, router, ...middleware)`
(src/server/index.ts:436-456): builds one `AppSwagger` entry per sub-router
route (prefix-tagged), mounts the sub-router's bound unit (`router.register()`
binds every sub-route under the prefix), and clears the **server's own**
top-level route list; the sub-router's state is returned untouched.  `none`
when the response-shape repair throws mid-way. -/
def routerMount (s : ServerState) (pre : List Char) (sub : RouterState) :
    Option (ServerState × RouterState) :=
  (mapOptionM (routerEntry pre) sub.routes).map (fun entries =>
    ({ routes := []
       swaggerPath := s.swaggerPath ++ entries
       bound := s.bound ++ sub.routes.map (fun r => (pre ++ r.path, r.method)) },
     sub))

/-- One registration-phase operation on an `AppServer`: a direct route
declaration (`get/post/put/patch/delete`, which appends to `routes`), or a
sub-router mount. -/
inductive RegOp : Type where
  | add : RouteD → RegOp
  | mount : List Char → List RouteD → RegOp

/-- Apply one registration operation. -/
def applyOp (s : ServerState) : RegOp → Option ServerState
  | .add r => some { s with routes := s.routes ++ [r] }
  | .mount pre subRoutes => (routerMount s pre ⟨subRoutes⟩).map Prod.fst

/-- Run a sequence of registration operations. -/
def runOps (s : ServerState) : List RegOp → Option ServerState
  | [] => some s
  | op :: ops => (applyOp s op).bind (fun s1 => runOps s1 ops)

/-- Source `AppServer.listen` (src/server/index.ts:471-506), up to the start of
traffic: for each remaining directly-declared route, in order, builds its
`AppSwagger` entry (unguarded `JSON.parse`) and binds it; then — when the
documentation-trigger middleware `SwaggerInitUi` is in the middleware stack —
hands the whole accumulated entry sequence to the Documentation Assembler;
finally clears both `swaggerPath` and `routes`.  Returns the post-listen
state together with the consumed entry sequence (`[]` when no trigger is
present). -/
def listenStep (s : ServerState) (hasSwaggerInit : Bool) :
    Option (ServerState × List AppSwagger) :=
  (mapOptionM listenEntry s.routes).map (fun entries =>
    let afterBind : ServerState :=
      { routes := s.routes
        swaggerPath := s.swaggerPath ++ entries
        bound := s.bound ++ s.routes.map (fun r => (r.path, r.method)) }
    let consumed := if hasSwaggerInit then afterBind.swaggerPath else []
    ({ afterBind with swaggerPath := [], routes := [] }, consumed))

/-! ## Documentation Assembler: parameter descriptors -/

/-- JS `Object.entries` on a JS value: fields of an object, indexed characters
of a string, indexed elements of an array, empty for primitives. -/
def jsEntries : JsValue → List (String × JsValue)
  | .obj o => o.toList
  | .str s => s.toList.enum.map (fun p => (toString p.1, .str (String.mk [p.2])))
  | .arr a => a.toList.enum.map (fun p => (toString p.1, p.2))
  | _ => []

/-- A JS `\x7c\x7c` whose left operand is an array: every array — the empty
array included — is truthy, so the right operand is never evaluated. -/
def jsOrArray (a _b : List IParameter) : List IParameter := a

/-- The parameter-descriptor computation of `SwaggerDoc.apiDoc`
(src/swagger.ts:131-152):
`detail?.params ? detail.params.map(...) :
 Object.entries(params).map(...path...) \x7c\x7c
 Object.entries(query).map(...query...) \x7c\x7c []`.
The two `\x7c\x7c` fallbacks sit to the right of an expression that always
evaluates to an array, hence `jsOrArray`. -/
def apiDocParameters (detail : Option SwaggerDetail)
    (params query : JsValue) : List IParameter :=
  match detail.bind SwaggerDetail.params with
  | some ps => ps.map (fun p =>
      { name := p.name, kind := p.kind, required := p.required, schema := p.schema })
  | none =>
    jsOrArray
      (jsOrArray
        ((jsEntries params).map (fun kv =>
          { name := kv.1, kind := "path", required := true, schema := kv.2 }))
        ((jsEntries query).map (fun kv =>
          { name := kv.1, kind := "query", required := false, schema := kv.2 })))
      []

/-! ## Concrete inputs used by witnesses and counterexamples -/

/-- A trivial request carrying nothing. -/
def emptyReq : Req := ⟨[], .null, .obj .nil⟩

/-- The textual source of the example app's `GET /profile` handler
(src/index.ts:24-27): its terminal return is the literal
`{ data: 'profile' }` with a single-quoted string, so the repaired text is
not valid JSON. -/
def exampleProfileHandlerSrc : List Char :=
  ("async (\x7b query, res, req \x7d) => \x7b console.log(query.username); return \x7b data: "
    ++ String.mk [sqChar] ++ "profile" ++ String.mk [sqChar] ++ " \x7d; \x7d").toList

/-- A handler source whose terminal return is repairable into valid JSON:
`async () => \x7breturn\x7bdata:"x"\x7d\x7d`. -/
def srcReturnsDataX : List Char := "async () => \x7breturn\x7bdata:\"x\"\x7d\x7d".toList

/-- A directly-declared demo route. -/
def demoRouteA : RouteD :=
  { path := "/profile".toList, method := .get, handlerSrc := srcReturnsDataX }

/-- A demo sub-router route. -/
def demoRouteB : RouteD :=
  { path := "/profiles".toList, method := .post, handlerSrc := srcReturnsDataX }

/-- A demo registration lifetime: mount a one-route sub-router under `/api`,
then declare one route directly on the server. -/
def demoOps : List RegOp := [.mount "/api".toList [demoRouteB], .add demoRouteA]

/-- The server state after the demo registration phase. -/
def demoRegState : ServerState := (runOps initialServer demoOps).getD initialServer

/-- The post-listen state and consumed documentation sequence of the demo
lifetime (with the documentation-trigger middleware present). -/
def demoListen : ServerState × List AppSwagger :=
  (listenStep demoRegState true).getD (initialServer, [])

/-- The demo mount of `claim C3`: a server owning one direct route mounts a
one-route sub-router under `/api`. -/
def demoMounted : ServerState × RouterState :=
  (routerMount { routes := [demoRouteA], swaggerPath := [], bound := [] }
    "/api".toList ⟨[demoRouteB]⟩).getD (initialServer, ⟨[]⟩)

/-! ## Helper lemmas -/

mutual
theorem exampleToSwagger_zodToObject :
    ∀ z : Zod, exampleToSwagger (zodToObject z) = zodToSwagger z
  | .str => rfl
  | .num => rfl
  | .other => rfl
  | .arr inner => by
    simp only [zodToObject, exampleToSwagger, zodToSwagger,
      exampleToSwagger_zodToObject inner]
  | .obj fields => by
    simp only [zodToObject, exampleToSwagger, zodToSwagger,
      exampleToSwaggerObj_zodToObjectFields fields]

theorem exampleToSwaggerObj_zodToObjectFields :
    ∀ fs : ZodFields, exampleToSwaggerObj (zodToObjectFields fs) = zodToSwaggerFields fs
  | .nil => rfl
  | .cons _ z rest => by
    simp only [zodToObjectFields, exampleToSwaggerObj, zodToSwaggerFields,
      exampleToSwagger_zodToObject z, exampleToSwaggerObj_zodToObjectFields rest]
end

mutual
theorem swaggerDepth_zodToSwagger :
    ∀ z : Zod, swaggerDepth (zodToSwagger z) ≤ zodDepth z
  | .str => le_refl _
  | .num => le_refl _
  | .other => le_refl _
  | .arr inner => by
    have ih := swaggerDepth_zodToSwagger inner
    simp only [zodToSwagger, swaggerDepth, zodDepth]
    omega
  | .obj fields => by
    have ih := swaggerPropsDepth_zodToSwaggerFields fields
    simp only [zodToSwagger, swaggerDepth, zodDepth]
    omega

theorem swaggerPropsDepth_zodToSwaggerFields :
    ∀ fs : ZodFields, swaggerPropsDepth (zodToSwaggerFields fs) ≤ zodFieldsDepth fs
  | .nil => le_refl _
  | .cons _ z rest => by
    have ih1 := swaggerDepth_zodToSwagger z
    have ih2 := swaggerPropsDepth_zodToSwaggerFields rest
    simp only [zodToSwaggerFields, swaggerPropsDepth, zodFieldsDepth]
    omega
end


theorem routerEntry_key (pre : List Char) (r : RouteD) (e : AppSwagger)
    (h : routerEntry pre r = some e) : entryKey e = (pre ++ r.path, r.method) := by
  rw [routerEntry, Option.map_eq_some'] at h
  obtain ⟨resp, _, he⟩ := h
  rw [← he]
  rfl

theorem listenEntry_key (r : RouteD) (e : AppSwagger)
    (h : listenEntry r = some e) : entryKey e = (r.path, r.method) := by
  rw [listenEntry, Option.map_eq_some'] at h
  obtain ⟨resp, _, he⟩ := h
  rw [← he]
  rfl

theorem mapOptionM_routerEntry_keys (pre : List Char) :
    ∀ (rs : List RouteD) (es : List AppSwagger),
      mapOptionM (routerEntry pre) rs = some es →
      es.map entryKey = rs.map (fun r => (pre ++ r.path, r.method))
  | [], es, h => by
    simp only [mapOptionM, Option.some_inj] at h
    subst h
    rfl
  | r :: rs, es, h => by
    simp only [mapOptionM] at h
    rw [Option.bind_eq_some] at h
    obtain ⟨e, he, h2⟩ := h
    rw [Option.map_eq_some'] at h2
    obtain ⟨es', hm, hcons⟩ := h2
    subst hcons
    simp only [List.map_cons, routerEntry_key pre r e he,
      mapOptionM_routerEntry_keys pre rs es' hm]

theorem mapOptionM_listenEntry_keys :
    ∀ (rs : List RouteD) (es : List AppSwagger),
      mapOptionM listenEntry rs = some es →
      es.map entryKey = rs.map (fun r => (r.path, r.method))
  | [], es, h => by
    simp only [mapOptionM, Option.some_inj] at h
    subst h
    rfl
  | r :: rs, es, h => by
    simp only [mapOptionM] at h
    rw [Option.bind_eq_some] at h
    obtain ⟨e, he, h2⟩ := h
    rw [Option.map_eq_some'] at h2
    obtain ⟨es', hm, hcons⟩ := h2
    subst hcons
    simp only [List.map_cons, listenEntry_key r e he,
      mapOptionM_listenEntry_keys rs es' hm]

/-- The accumulation invariant: each accumulated documentation entry's
mounted path and method line up, in order, with the bound route table. -/
def keysSync (s : ServerState) : Prop :=
  s.swaggerPath.map entryKey = s.bound

theorem applyOp_keysSync (s s' : ServerState) (op : RegOp)
    (h : applyOp s op = some s') (hs : keysSync s) : keysSync s' := by
  cases op with
  | add r =>
    simp only [applyOp, Option.some_inj] at h
    subst h
    exact hs
  | mount pre subRoutes =>
    simp only [applyOp] at h
    rw [Option.map_eq_some'] at h
    obtain ⟨⟨s1, sub1⟩, hm, hfst⟩ := h
    rw [routerMount, Option.map_eq_some'] at hm
    obtain ⟨entries, hme, hpair⟩ := hm
    cases hpair
    cases hfst
    unfold keysSync at hs ⊢
    simp only [List.map_append, hs]
    rw [mapOptionM_routerEntry_keys pre subRoutes entries hme]

theorem runOps_keysSync :
    ∀ (ops : List RegOp) (s s' : ServerState),
      keysSync s → runOps s ops = some s' → keysSync s'
  | [], s, s', hs, h => by
    simp only [runOps, Option.some_inj] at h
    subst h
    exact hs
  | op :: ops, s, s', hs, h => by
    simp only [runOps] at h
    rw [Option.bind_eq_some] at h
    obtain ⟨s1, ha, hrun⟩ := h
    exact runOps_keysSync ops s1 s' (applyOp_keysSync s s1 op ha hs) hrun

/-! ## The claims -/

/-- C1 (counterexample): a route `/items/:id` with no explicit params schema,
processed for a request with no value bound to `id`, transmits HTTP **500**
with the fixed body `{success:false, message:'Internal server error'}` — not
the HTTP 400 with a field-path reference to `id` that the claim states
(500 ≠ 400). -/
theorem validateParams_missing_id_gives_500 :
    createHandler {} (createZodSchema "/items/:id".toList)
        (.ok { data := some (.str "x") }) emptyReq false
      = { status := 500, body := .internalError false "Internal server error" } ∧
    (500 : Nat) ≠ 400 :=
  ⟨rfl, by decide⟩

/-- C1 (amended): for every route whose template-derived schema object
rejects the request (a dynamic parameter without a truthy bound value) under
no explicit params schema, the transmitted response is HTTP 500 with
`{success:false, message:'Internal server error'}`. -/
theorem validateParams_missing_param_500 (path : List Char) (req : Req)
    (outcome : HandlerResult) (dev : Bool) (m : String)
    (hp : runParamsStage (createZodSchema path) req = some m) :
    createHandler {} (createZodSchema path) outcome req dev
      = { status := 500, body := .internalError false "Internal server error" } := by
  have hv : validateRequest {} req = none := rfl
  simp [createHandler, hv, hp, handleError]

/-- C1 witness: the amended claim at `/items/:id` and the empty request. -/
theorem validateParams_missing_param_500_witness :
    createHandler {} (createZodSchema "/items/:id".toList) (.ok {}) emptyReq false
      = { status := 500, body := .internalError false "Internal server error" } :=
  validateParams_missing_param_500 "/items/:id".toList emptyReq (.ok {}) false _ rfl

/-- C2: on the example app's own `GET /profile` handler source (terminal
return `{ data: 'profile' }`, not repairable into valid JSON), the sub-router
mounting path degrades the inferred response shape to the empty object, but
the direct listen-time binding path — whose `JSON.parse` has no `try/catch` —
throws instead of degrading, contradicting the never-raises claim. -/
theorem inferResponse_listen_throws_on_unparseable :
    inferResponseRouter exampleProfileHandlerSrc = some (.obj .nil) ∧
    inferResponseListen exampleProfileHandlerSrc = none :=
  ⟨rfl, rfl⟩

/-- C3 (counterexample): a server owning one direct route mounts a one-route
sub-router under `/api`; afterwards the **server's** route list is empty and
the **sub-router's** still holds its one route — the opposite of the claim,
which says the sub-router is drained while the server's direct routes
remain. -/
theorem routerMount_clears_host_not_sub :
    (routerMount { routes := [demoRouteA], swaggerPath := [], bound := [] }
        "/api".toList ⟨[demoRouteB]⟩).map
        (fun p => (p.1.routes.length, p.2.routes.length)) = some (0, 1) ∧
    (1 : Nat) ≠ 0 :=
  ⟨rfl, by decide⟩

/-- C3 (amended): after `router(prefix, subRouter, ...)` mounts a sub-router
under a prefix, the **hosting server's** own top-level route list is cleared,
while the sub-router's accumulated route list is unchanged. -/
theorem routerMount_drains_host_routes (s : ServerState) (pre : List Char)
    (sub : RouterState) (s' : ServerState) (sub' : RouterState)
    (h : routerMount s pre sub = some (s', sub')) :
    s'.routes = [] ∧ sub'.routes = sub.routes := by
  rw [routerMount, Option.map_eq_some'] at h
  obtain ⟨entries, _, hpair⟩ := h
  cases hpair
  exact ⟨rfl, rfl⟩

/-- C3 witness: the amended claim at the demo mount. -/
theorem routerMount_drains_host_routes_witness :
    demoMounted.1.routes = [] ∧ demoMounted.2.routes = [demoRouteB] :=
  routerMount_drains_host_routes
    { routes := [demoRouteA], swaggerPath := [], bound := [] }
    "/api".toList ⟨[demoRouteB]⟩ demoMounted.1 demoMounted.2 rfl

/-- C4 (counterexample): a handler rejecting with a plain
`Error('boom')` (non-validation, non-declared) yields HTTP 500 whose body
message is the error's own `'boom'` — not the fixed `'Internal server error'`
the claim states — and, outside development mode, no trace stack. -/
theorem handler_error_message_not_fixed :
    createHandler {} [] (.threw (.error "boom" "stackframes")) emptyReq false
      = { status := 500, body := .globalError 500 "boom" false none } ∧
    "boom" ≠ "Internal server error" :=
  ⟨rfl, by decide⟩

/-- C4 (amended): for every request in which the handler throws or rejects
with a non-validation, non-declared `Error` whose message does not contain
`'not found'`, the transmitted response is HTTP 500 with `success:false` and
the error's **own** message, the trace stack being attached only in
development mode. -/
theorem handler_error_500_own_message (schemas : RouteSchemas)
    (so : List (String × String)) (req : Req) (msg stack : String) (dev : Bool)
    (hv : validateRequest schemas req = none)
    (hp : runParamsStage so req = none)
    (hnf : strIncludes "not found" msg = false) :
    createHandler schemas so (.threw (.error msg stack)) req dev
      = { status := 500
          body := .globalError 500 msg false (if dev then some stack else none) } := by
  simp [createHandler, hv, hp, preRequest, globalErrorHandler, hnf]

/-- C4 witness: the amended claim in development mode, where the stack is
attached. -/
theorem handler_error_500_own_message_witness :
    createHandler {} [] (.threw (.error "boom" "stackframes")) emptyReq true
      = { status := 500, body := .globalError 500 "boom" false (some "stackframes") } := by
  have h := handler_error_500_own_message {} [] emptyReq "boom" "stackframes" true
    rfl rfl (by decide)
  simpa using h

/-- C5: an error thrown during handler execution that carries an explicit
declared status code produces that status instead of the default 500 — except
that a message containing `'not found'` forces 404 regardless of the declared
code — and the message is preserved in the body. -/
theorem declared_status_with_notfound_override (schemas : RouteSchemas)
    (so : List (String × String)) (req : Req) (declared : Nat)
    (msg stack : String) (dev : Bool)
    (hv : validateRequest schemas req = none)
    (hp : runParamsStage so req = none) :
    createHandler schemas so (.threw (.httpError declared msg stack)) req dev
      = { status := if strIncludes "not found" msg then 404 else declared
          body := .globalError (if strIncludes "not found" msg then 404 else declared)
            msg false (if dev then some stack else none) } := by
  simp [createHandler, hv, hp, preRequest, globalErrorHandler]

/-- C5 witness: a declared 403 with message `'profile not found'` is forced
to 404 and the message is preserved. -/
theorem declared_status_with_notfound_override_witness :
    createHandler {} [] (.threw (.httpError 403 "profile not found" "st")) emptyReq false
      = { status := 404, body := .globalError 404 "profile not found" false none } := by
  have h := declared_status_with_notfound_override {} [] emptyReq 403
    "profile not found" "st" false rfl rfl
  have hnf : strIncludes "not found" "profile not found" = true := by decide
  rw [h, hnf]
  simp

/-- C6: across a server's whole registration lifetime (any sequence of direct
declarations and sub-router mounts, then `listen` with the
documentation-trigger middleware present), the consumed `AppSwagger` sequence
pairs up one-to-one and in order with the bound route table, and afterwards
the accumulation list is cleared. -/
theorem swagger_entries_match_bound_routes (ops : List RegOp)
    (s s' : ServerState) (consumed : List AppSwagger)
    (h1 : runOps initialServer ops = some s)
    (h2 : listenStep s true = some (s', consumed)) :
    consumed.map entryKey = s'.bound ∧ s'.swaggerPath = [] := by
  have hsync : keysSync s := runOps_keysSync ops initialServer s rfl h1
  unfold keysSync at hsync
  rw [listenStep, Option.map_eq_some'] at h2
  obtain ⟨entries, hm, hpair⟩ := h2
  cases hpair
  refine ⟨?_, rfl⟩
  simp only [if_true, List.map_append, hsync,
    mapOptionM_listenEntry_keys s.routes entries hm]

/-- C6 witness: the demo lifetime (one mount, one direct route). -/
theorem swagger_entries_match_bound_routes_witness :
    demoListen.2.map entryKey = demoListen.1.bound ∧ demoListen.1.swaggerPath = [] :=
  swagger_entries_match_bound_routes demoOps demoRegState demoListen.1 demoListen.2 rfl rfl

/-- C7: with no explicit detail parameters, an empty derived params shape and
a non-empty query shape, `apiDoc` yields an **empty** parameter list — the
query-schema fallback written after `\x7c\x7c` is dead code because the
path-derived `.map` result is an array and every array is truthy — whereas
the claim requires query-derived non-required descriptors. -/
theorem apiDoc_query_fallback_dead :
    apiDocParameters none (.obj .nil) (.obj (.cons "username" (.str "string") .nil)) = [] ∧
    jsEntries (.obj (.cons "username" (.str "string") .nil)) ≠ [] :=
  ⟨rfl, by simp [jsEntries, JsObj.toList]⟩

/-- C8: the Shape Converter is total by construction — its output's nesting
depth is bounded by the (finite) schema depth for arbitrarily nested
object/array compositions — and an unrecognized schema kind always yields
`{type:'unknown'}`. -/
theorem zodToSwagger_total_and_unknown :
    zodToSwagger Zod.other = SwaggerShape.prim "unknown" ∧
    ∀ z : Zod, swaggerDepth (zodToSwagger z) ≤ zodDepth z :=
  ⟨rfl, swaggerDepth_zodToSwagger⟩

/-- C9: converting a schema to its example object and re-deriving a
documentation shape from that example yields exactly the shape derived
directly from the schema. -/
theorem zod_roundtrip_idempotent (z : Zod) :
    exampleToSwagger (zodToObject z) = zodToSwagger z :=
  exampleToSwagger_zodToObject z

/-- C10: for every request that passes validation and whose handler resolves,
the transport status of the transmitted response is 200 — even when the
handler's `BaseResponse` carries a `statusCode` field, which surfaces only as
a body property. -/
theorem resolved_handler_always_200 (schemas : RouteSchemas)
    (so : List (String × String)) (req : Req) (r : BaseResponse) (dev : Bool)
    (hv : validateRequest schemas req = none)
    (hp : runParamsStage so req = none) :
    createHandler schemas so (.ok r) req dev
      = { status := 200, body := .success (mergeResponse r) } ∧
    (mergeResponse r).statusCode = r.statusCode := by
  refine ⟨?_, rfl⟩
  simp [createHandler, hv, hp, preRequest]

/-- C10 witness: a handler resolving with `statusCode: 201` is still
transmitted with transport status 200, the 201 only in the body. -/
theorem resolved_handler_always_200_witness :
    createHandler {} [] (.ok { statusCode := some 201 }) emptyReq false
      = { status := 200, body := .success (mergeResponse { statusCode := some 201 }) } ∧
    (mergeResponse { statusCode := some 201 }).statusCode = some 201 :=
  resolved_handler_always_200 {} [] emptyReq { statusCode := some 201 } false rfl rfl
